import Mathlib

/-!
Shallow embedding of the Vulkan2D sprite-batching engine
(`src/Renderer/SpriteBatch.cpp`, instanced-capable implementation),
the 2D camera (`src/Graphics/Camera2D.cpp`) and the text-layout
component (`TextRenderer::DrawText`).

Modelling conventions:
* Texture identity is a pointer value, modelled as `Nat`; the sort and
  grouping logic compares only pointer values, exactly as the source does.
* `float` scalars are modelled as `ℚ`.  `std::cos` / `std::sin` are
  external library functions; they are passed in as parameters
  `cosf sinf : ℚ → ℚ`, and are used exactly where the source calls them.
* Throwing methods (`Begin`, `Draw`, `End` in the wrong state) are
  modelled with `Except String`: the thrown branch occurs before any
  mutation in the source, so an `.error` result leaves the caller with
  the unchanged pre-state.
* GPU calls (`vkCmdDrawIndexed`, descriptor allocation, buffer memcpy)
  are modelled by their observable data: the per-batch draw commands
  recorded by `Render`, the descriptor cache as an association list with
  a deterministic id allocator, and the staging-buffer contents.
* The wall-clock statistic `cpuTimeMs` is not modelled (real time).
-/

namespace V2D

/-- Pointer identity of a `Texture` (sort key: the raw pointer value). -/
abbrev TexturePtr := Nat

/-- `SpriteInstance` from `SpriteBatch.h`: the GPU-ready per-sprite
record built by `SpriteBatch::Draw`. -/
structure SpriteInstance where
  position : ℚ × ℚ
  size : ℚ × ℚ
  origin : ℚ × ℚ
  rotation : ℚ
  padding : ℚ
  color : ℚ × ℚ × ℚ × ℚ
  uvRect : ℚ × ℚ × ℚ × ℚ
deriving DecidableEq, Repr

/-- `SpriteData` from `SpriteBatch.h`: sort key plus instance payload. -/
structure SpriteData where
  texture : TexturePtr
  inst : SpriteInstance
deriving DecidableEq, Repr

/-- `BatchInfo` (instanced variant): one contiguous same-texture run. -/
structure BatchInfo where
  texture : TexturePtr
  startInstance : Nat
  instanceCount : Nat
deriving DecidableEq, Repr

/-- `BatchStatistics` from `SpriteBatch.h` (without the wall-clock
field `cpuTimeMs`, which is not modelled). -/
structure BatchStatistics where
  spriteCount : Nat
  drawCallCount : Nat
  instancedBatches : Nat
  textureBindCount : Nat
deriving DecidableEq, Repr

/-- Legacy vertex format `Vertex2D`. -/
structure Vertex2D where
  position : ℚ × ℚ × ℚ
  color : ℚ × ℚ × ℚ × ℚ
  texCoord : ℚ × ℚ
deriving DecidableEq, Repr

/-- The mutable state of a `SpriteBatch` object. -/
structure SpriteBatch where
  maxSprites : Nat
  whiteTexture : TexturePtr
  enableTextureSorting : Bool
  isBatching : Bool
  currentCamera : Option Nat
  spriteDataList : List SpriteData
  instances : List SpriteInstance
  batches : List BatchInfo
  vertices : List Vertex2D
  indices : List Nat
  statistics : BatchStatistics
  currentFrameIndex : Nat
  staging0 : List SpriteInstance
  staging1 : List SpriteInstance
  needsUpload0 : Bool
  needsUpload1 : Bool
  descriptorSets : List (TexturePtr × Nat)
  nextDescriptorId : Nat
deriving DecidableEq, Repr

/-- The constructor-established state of a fresh `SpriteBatch`
(per-frame containers empty, not batching, frame index 0,
texture sorting enabled by default, empty descriptor cache). -/
def mkSpriteBatch (maxSprites : Nat) (whiteTexture : TexturePtr) : SpriteBatch where
  maxSprites := maxSprites
  whiteTexture := whiteTexture
  enableTextureSorting := true
  isBatching := false
  currentCamera := none
  spriteDataList := []
  instances := []
  batches := []
  vertices := []
  indices := []
  statistics := ⟨0, 0, 0, 0⟩
  currentFrameIndex := 0
  staging0 := []
  staging1 := []
  needsUpload0 := false
  needsUpload1 := false
  descriptorSets := []
  nextDescriptorId := 0

/-- The arguments of one call to the main `SpriteBatch::Draw` overload
(`texture` is the possibly-null `Texture*`). -/
structure DrawReq where
  texture : Option TexturePtr
  position : ℚ × ℚ
  size : ℚ × ℚ
  uvMin : ℚ × ℚ
  uvMax : ℚ × ℚ
  color : ℚ × ℚ × ℚ × ℚ
  rotation : ℚ
  origin : ℚ × ℚ
deriving DecidableEq, Repr

namespace SpriteBatch

/-- `SpriteBatch::Begin`: precondition check, then clear all per-frame
containers and reset the statistics, and enter the `Batching` state. -/
def Begin (sb : SpriteBatch) (camera : Nat) : Except String SpriteBatch :=
  if sb.isBatching then
    .error "SpriteBatch::Begin called without ending previous batch"
  else
    .ok { sb with
      isBatching := true
      currentCamera := some camera
      spriteDataList := []
      instances := []
      batches := []
      vertices := []
      indices := []
      statistics := ⟨0, 0, 0, 0⟩ }

/-- The `SpriteData` record that `SpriteBatch::Draw` appends for a
request, after the null-texture substitution has been resolved to
`texture`. -/
def mkSpriteData (texture : TexturePtr) (r : DrawReq) : SpriteData where
  texture := texture
  inst := {
    position := r.position
    size := r.size
    origin := r.origin
    rotation := r.rotation
    padding := 0
    color := r.color
    uvRect := (r.uvMin.1, r.uvMin.2, r.uvMax.1, r.uvMax.2) }

/-- `SpriteBatch::Draw` (main overload): throws outside `Batching`,
silently drops the request at capacity, substitutes the white texture
for a null texture argument, then appends the sprite data. -/
def Draw (sb : SpriteBatch) (r : DrawReq) : Except String SpriteBatch :=
  if !sb.isBatching then
    .error "SpriteBatch::Draw called without Begin"
  else if sb.maxSprites ≤ sb.spriteDataList.length then
    .ok sb
  else
    let texture := match r.texture with
      | none => sb.whiteTexture
      | some t => t
    .ok { sb with spriteDataList := sb.spriteDataList ++ [mkSpriteData texture r] }

/-- The comparator handed to `std::stable_sort` is the strict
`a.texture < b.texture`; a stable sort with strict comparator `lt` is a
stable merge sort with the non-strict key order `le a b := ¬ lt b a`,
which for pointer values is `a.texture ≤ b.texture`. -/
def texLE (a b : SpriteData) : Bool := decide (a.texture ≤ b.texture)

/-- `SpriteBatch::SortBatches`: stable sort of the pending sprite list
by texture identity, skipped when sorting is disabled or the list is
empty. -/
def SortBatches (sb : SpriteBatch) : SpriteBatch :=
  if !sb.enableTextureSorting || sb.spriteDataList.isEmpty then sb
  else { sb with spriteDataList := sb.spriteDataList.mergeSort texLE }

/-- Loop-carried state of the scan in `SpriteBatch::BuildBatches`:
the batch and instance vectors plus `currentTexture` (a possibly-null
`Texture*`) and `batchStartIndex`. -/
structure BuildState where
  batches : List BatchInfo
  instances : List SpriteInstance
  currentTexture : Option TexturePtr
  batchStartIndex : Nat
deriving DecidableEq, Repr

/-- The `for` loop of `SpriteBatch::BuildBatches`: on a texture change,
close the previous batch (when one is open and non-empty) and open a new
one; always push the instance record. -/
def buildLoop : List SpriteData → Nat → BuildState → BuildState
  | [], _, st => st
  | sd :: rest, i, st =>
    if some sd.texture ≠ st.currentTexture then
      let batches1 :=
        match st.currentTexture with
        | some t =>
          if st.batchStartIndex < i then
            st.batches ++ [⟨t, st.batchStartIndex, i - st.batchStartIndex⟩]
          else st.batches
        | none => st.batches
      buildLoop rest (i + 1)
        { batches := batches1
          instances := st.instances ++ [sd.inst]
          currentTexture := some sd.texture
          batchStartIndex := i }
    else
      buildLoop rest (i + 1) { st with instances := st.instances ++ [sd.inst] }

/-- `SpriteBatch::BuildBatches`: early return on an empty list, the
linear scan, then the final batch is closed with
`instanceCount = m_SpriteDataList.size() - batchStartIndex`. -/
def BuildBatches (sb : SpriteBatch) : SpriteBatch :=
  if sb.spriteDataList.isEmpty then sb
  else
    let st := buildLoop sb.spriteDataList 0
      { batches := sb.batches
        instances := sb.instances
        currentTexture := none
        batchStartIndex := 0 }
    match st.currentTexture with
    | some t =>
      { sb with
        batches := st.batches ++
          [⟨t, st.batchStartIndex, sb.spriteDataList.length - st.batchStartIndex⟩]
        instances := st.instances }
    | none => { sb with batches := st.batches, instances := st.instances }

/-- `SpriteBatch::UploadInstanceData`: copy the instance array into the
current frame slot's CPU-visible staging buffer and mark it for upload
(no-op when there are no instances). -/
def UploadInstanceData (sb : SpriteBatch) : SpriteBatch :=
  if sb.instances.isEmpty then sb
  else if sb.currentFrameIndex % 2 = 0 then
    { sb with staging0 := sb.instances, needsUpload0 := true }
  else
    { sb with staging1 := sb.instances, needsUpload1 := true }

/-- The legacy vertex/index emission loop in `SpriteBatch::End`:
per request, four rotated corner vertices and the six quad indices
(`base+0, base+1, base+2, base+2, base+3, base+0`). -/
def legacyEmit (cosf sinf : ℚ → ℚ) :
    List SpriteData → List Vertex2D × List Nat → List Vertex2D × List Nat
  | [], acc => acc
  | sd :: rest, (vs, ixs) =>
    let inst := sd.inst
    let c0 : ℚ × ℚ := (-inst.origin.1, -inst.origin.2)
    let c1 : ℚ × ℚ := (inst.size.1 - inst.origin.1, -inst.origin.2)
    let c2 : ℚ × ℚ := (inst.size.1 - inst.origin.1, inst.size.2 - inst.origin.2)
    let c3 : ℚ × ℚ := (-inst.origin.1, inst.size.2 - inst.origin.2)
    let cosr := cosf inst.rotation
    let sinr := sinf inst.rotation
    let rotp : ℚ × ℚ → ℚ × ℚ := fun p =>
      (p.1 * cosr - p.2 * sinr + inst.position.1,
       p.1 * sinr + p.2 * cosr + inst.position.2)
    let r0 := rotp c0
    let r1 := rotp c1
    let r2 := rotp c2
    let r3 := rotp c3
    let base := vs.length
    let uvMinx := inst.uvRect.1
    let uvMiny := inst.uvRect.2.1
    let uvMaxx := inst.uvRect.2.2.1
    let uvMaxy := inst.uvRect.2.2.2
    legacyEmit cosf sinf rest
      (vs ++
        [⟨(r0.1, r0.2, 0), inst.color, (uvMinx, uvMiny)⟩,
         ⟨(r1.1, r1.2, 0), inst.color, (uvMaxx, uvMiny)⟩,
         ⟨(r2.1, r2.2, 0), inst.color, (uvMaxx, uvMaxy)⟩,
         ⟨(r3.1, r3.2, 0), inst.color, (uvMinx, uvMaxy)⟩],
       ixs ++ [base, base + 1, base + 2, base + 2, base + 3, base])

/-- `SpriteBatch::End`: precondition check, stable texture sort, batch
construction, instance upload, legacy vertex/index generation, statistics
update, leave the `Batching` state and advance the frame-slot index
modulo `FRAME_BUFFER_COUNT = 2`. -/
def End (cosf sinf : ℚ → ℚ) (sb : SpriteBatch) : Except String SpriteBatch :=
  if !sb.isBatching then
    .error "SpriteBatch::End called without Begin"
  else
    let sb1 := SortBatches sb
    let sb2 := BuildBatches sb1
    let sb3 := UploadInstanceData sb2
    let vi := legacyEmit cosf sinf sb3.spriteDataList (sb3.vertices, sb3.indices)
    .ok { sb3 with
      vertices := vi.1
      indices := vi.2
      statistics := {
        spriteCount := sb3.spriteDataList.length
        drawCallCount := sb3.batches.length
        instancedBatches := 0
        textureBindCount := sb3.batches.length }
      isBatching := false
      currentFrameIndex := (sb3.currentFrameIndex + 1) % 2 }

/-- One recorded `vkCmdDrawIndexed` call of `SpriteBatch::Render`, with
the descriptor set bound for it. -/
structure DrawCmd where
  texture : TexturePtr
  descriptorSet : Nat
  indexCount : Nat
  firstIndex : Nat
deriving DecidableEq, Repr

/-- `SpriteBatch::GetOrCreateDescriptorSet`: cache lookup by texture
pointer; on a miss a fresh descriptor set is allocated (modelled by a
deterministic counter) and inserted. -/
def GetOrCreateDescriptorSet (sb : SpriteBatch) (texture : TexturePtr) :
    Nat × SpriteBatch :=
  match sb.descriptorSets.find? (fun p => p.1 == texture) with
  | some p => (p.2, sb)
  | none =>
    let ds := sb.nextDescriptorId
    (ds, { sb with
      descriptorSets := sb.descriptorSets ++ [(texture, ds)]
      nextDescriptorId := ds + 1 })

/-- The per-batch loop of `SpriteBatch::Render`: resolve the texture's
descriptor set, record one indexed draw of `instanceCount * 6` indices
starting at the running index offset, and advance the offset. -/
def renderLoop : List BatchInfo → Nat → SpriteBatch → List DrawCmd × SpriteBatch
  | [], _, sb => ([], sb)
  | b :: rest, indexOffset, sb =>
    let r := GetOrCreateDescriptorSet sb b.texture
    let indexCount := b.instanceCount * 6
    let rest1 := renderLoop rest (indexOffset + indexCount) r.2
    (⟨b.texture, r.1, indexCount, indexOffset⟩ :: rest1.1, rest1.2)

/-- `SpriteBatch::Render`: no-op when there are no batches, otherwise
one indexed draw per batch over the shared vertex/index buffers. -/
def Render (sb : SpriteBatch) : List DrawCmd × SpriteBatch :=
  if sb.batches.isEmpty then ([], sb)
  else renderLoop sb.batches 0 sb

end SpriteBatch

/-- Submit a list of draw requests in order (`Draw` per element). -/
def drawAll (sb : SpriteBatch) : List DrawReq → Except String SpriteBatch
  | [] => .ok sb
  | r :: rest =>
    match sb.Draw r with
    | .ok sb1 => drawAll sb1 rest
    | .error e => .error e

/-- One full frame of the protocol: `Begin`, the draw requests in
order, then `End`. -/
def runFrame (cosf sinf : ℚ → ℚ) (sb : SpriteBatch) (camera : Nat)
    (reqs : List DrawReq) : Except String SpriteBatch :=
  match sb.Begin camera with
  | .error e => .error e
  | .ok sb1 =>
    match drawAll sb1 reqs with
    | .error e => .error e
    | .ok sb2 => SpriteBatch.End cosf sinf sb2

/-! ### Camera2D (`src/Graphics/Camera2D.cpp`) -/

/-- The mutable state of a `Camera2D`.  The cached view/projection
matrices are represented by their dirty flags; a matrix is recomputed
from the stored fields on the next read whenever its flag is set, so
every stored-field mutation below is visible to the next matrix read. -/
structure Camera2D where
  position : ℚ × ℚ
  rotation : ℚ
  zoom : ℚ
  viewportWidth : ℚ
  viewportHeight : ℚ
  viewDirty : Bool
  projectionDirty : Bool
deriving DecidableEq, Repr

namespace Camera2D

/-- `Camera2D::SetZoom`: store the zoom, clamp it to the floor `0.1`,
and mark the view matrix dirty. -/
def SetZoom (c : Camera2D) (zoom : ℚ) : Camera2D :=
  let z := zoom
  let z1 := if z < 1/10 then (1/10 : ℚ) else z
  { c with zoom := z1, viewDirty := true }

/-- `Camera2D::Zoom` (relative): add the delta, clamp to the floor
`0.1`, and mark the view matrix dirty. -/
def ZoomBy (c : Camera2D) (delta : ℚ) : Camera2D :=
  let z := c.zoom + delta
  let z1 := if z < 1/10 then (1/10 : ℚ) else z
  { c with zoom := z1, viewDirty := true }

end Camera2D

/-! ### Text layout (`TextRenderer::DrawText`, string overload) -/

/-- `GlyphInfo` from `Font.h`: integer glyph metrics plus atlas UVs. -/
structure GlyphInfo where
  size : Int × Int
  bearing : Int × Int
  advance : Nat
  uvMin : ℚ × ℚ
  uvMax : ℚ × ℚ
deriving DecidableEq, Repr

/-- The `Font` contract consumed by `TextRenderer::DrawText`:
`glyphs` is `Font::GetGlyph` (null pointer for an unknown code point),
plus the shared atlas texture, the font size and the ascent. -/
structure Font where
  glyphs : Nat → Option GlyphInfo
  atlasTexture : TexturePtr
  fontSize : Nat
  ascent : ℚ

/-- One draw request that `TextRenderer::DrawText` submits to the
`SpriteBatch` (the arguments of the `batch->Draw(atlas, ...)` call). -/
structure TextDrawCall where
  texture : TexturePtr
  position : ℚ × ℚ
  size : ℚ × ℚ
  uvMin : ℚ × ℚ
  uvMax : ℚ × ℚ
  color : ℚ × ℚ × ℚ × ℚ
deriving DecidableEq, Repr

inductive TextAlign
  | left
  | center
  | right
deriving DecidableEq, Repr

/-- The `textWidth` accumulation of `TextRenderer::DrawText`: glyph
advance when the glyph exists, else half the font size, each scaled. -/
def measureLoop (font : Font) (scale : ℚ) : List Nat → ℚ
  | [] => 0
  | cp :: rest =>
    (match font.glyphs cp with
      | some glyph => (glyph.advance : ℚ) * scale
      | none => (font.fontSize : ℚ) * scale * (1/2)) +
    measureLoop font scale rest

/-- The per-code-point emission loop of `TextRenderer::DrawText`
(lines 285-310): an unknown code point only advances the pen; a known
glyph emits one `batch->Draw` against the atlas texture if and only if
both its dimensions are positive, then advances the pen. -/
def drawTextLoop (font : Font) (scale : ℚ) (color : ℚ × ℚ × ℚ × ℚ)
    (y : ℚ) : List Nat → ℚ → List TextDrawCall
  | [], _ => []
  | cp :: rest, x =>
    match font.glyphs cp with
    | none =>
      drawTextLoop font scale color y rest (x + (font.fontSize : ℚ) * scale * (1/2))
    | some glyph =>
      let calls :=
        if 0 < glyph.size.1 ∧ 0 < glyph.size.2 then
          let xpos := x + (glyph.bearing.1 : ℚ) * scale
          let ypos := y - (glyph.bearing.2 : ℚ) * scale
          let w := (glyph.size.1 : ℚ) * scale
          let h := (glyph.size.2 : ℚ) * scale
          [⟨font.atlasTexture, (xpos, ypos), (w, h), glyph.uvMin, glyph.uvMax, color⟩]
        else []
      calls ++ drawTextLoop font scale color y rest (x + (glyph.advance : ℚ) * scale)

/-- `TextRenderer::DrawText` (string overload), applied to the decoded
code-point sequence of the text: early return on an empty text, the
alignment offset from the measured width, the baseline from the ascent,
then the emission loop.  The returned list is the sequence of draw
requests submitted to the batching engine. -/
def DrawText (font : Font) (codepoints : List Nat) (position : ℚ × ℚ)
    (color : ℚ × ℚ × ℚ × ℚ) (scale : ℚ) (align : TextAlign) : List TextDrawCall :=
  if codepoints.isEmpty then []
  else
    let textWidth := measureLoop font scale codepoints
    let offsetX : ℚ :=
      match align with
      | .center => -textWidth / 2
      | .right => -textWidth
      | .left => 0
    let x := position.1 + offsetX
    let y := position.2 + font.ascent * scale
    drawTextLoop font scale color y codepoints x

/-! ### Specification-side helper definitions -/

/-- `coversFromB n bs m` holds when the `(startInstance, instanceCount)`
ranges of `bs`, in order, tile the interval `[n, m)` exactly: each batch
starts where the previous one ended, has a positive count, and the last
one ends at `m`.  This is the no-gap / no-overlap / full-cover
partition property. -/
def coversFromB : Nat → List BatchInfo → Nat → Bool
  | n, [], m => n == m
  | n, b :: rest, m =>
    (b.startInstance == n) && decide (0 < b.instanceCount) &&
      coversFromB (n + b.instanceCount) rest m

/-- The number of maximal runs of equal adjacent values in a list. -/
def countRuns : List TexturePtr → Nat
  | [] => 0
  | [_] => 1
  | a :: b :: rest => (if a = b then 0 else 1) + countRuns (b :: rest)

/-- The sprite record that an accepted `Draw` call appends: the
null-texture substitution applied to the request. -/
def substTexture (white : TexturePtr) (r : DrawReq) : SpriteData :=
  SpriteBatch.mkSpriteData
    (match r.texture with
      | none => white
      | some t => t) r

/-- The sprite records accepted during one frame from a request list:
`Draw` drops every request past the capacity, so exactly the first
`maxSprites` requests are recorded. -/
def acceptedData (sb : SpriteBatch) (reqs : List DrawReq) : List SpriteData :=
  (reqs.take sb.maxSprites).map (substTexture sb.whiteTexture)

/-- The frame's sprite list after `SortBatches` in `End`. -/
def sortedData (sb : SpriteBatch) (reqs : List DrawReq) : List SpriteData :=
  let a := acceptedData sb reqs
  if !sb.enableTextureSorting || a.isEmpty then a
  else a.mergeSort SpriteBatch.texLE

/-- Whether `DrawText` emits a draw request for a code point: its
glyph must exist and have positive width and height (the
`glyph->size.x > 0 && glyph->size.y > 0` guard of the emission loop). -/
def glyphVisible (font : Font) (cp : Nat) : Bool :=
  match font.glyphs cp with
  | some glyph => decide (0 < glyph.size.1 ∧ 0 < glyph.size.2)
  | none => false

/-- Test fixture: a zero-area glyph, as a font atlas records for a
blank character such as a space (positive advance, no bitmap). -/
def blankGlyph : GlyphInfo where
  size := (0, 0)
  bearing := (0, 0)
  advance := 10
  uvMin := (0, 0)
  uvMax := (0, 0)

/-- Test fixture: a font whose only glyph is the zero-area
`blankGlyph` at code point 32. -/
def blankFont : Font where
  glyphs := fun cp => if cp = 32 then some blankGlyph else none
  atlasTexture := 3
  fontSize := 16
  ascent := 12

/-- Test fixture: a simple draw request against texture `t`. -/
def sampleReq (t : Option TexturePtr) : DrawReq where
  texture := t
  position := (0, 0)
  size := (1, 1)
  uvMin := (0, 0)
  uvMax := (1, 1)
  color := (1, 1, 1, 1)
  rotation := 0
  origin := (0, 0)

/-- Whether a call returned normally (as opposed to throwing). -/
def exOk : Except String SpriteBatch → Bool
  | .ok _ => true
  | .error _ => false

/-- The sprite list `SortBatches` leaves behind, as a function of the
engine state (the sort is skipped when disabled or the list is empty). -/
def sortedListOf (sb : SpriteBatch) : List SpriteData :=
  if !sb.enableTextureSorting || sb.spriteDataList.isEmpty then sb.spriteDataList
  else sb.spriteDataList.mergeSort SpriteBatch.texLE

/-- The engine state right after a successful `Begin`. -/
def beginState (sb : SpriteBatch) (camera : Nat) : SpriteBatch :=
  { sb with
    isBatching := true
    currentCamera := some camera
    spriteDataList := []
    instances := []
    batches := []
    vertices := []
    indices := []
    statistics := ⟨0, 0, 0, 0⟩ }

/-- The engine state after `Begin` and all the frame's `Draw` calls. -/
def drawnState (sb : SpriteBatch) (camera : Nat) (reqs : List DrawReq) : SpriteBatch :=
  { beginState sb camera with spriteDataList := acceptedData sb reqs }

/-- The `(batches, instances)` pair `BuildBatches` computes from a
sprite list when the frame's batch and instance vectors start empty. -/
def buildResult (l : List SpriteData) : List BatchInfo × List SpriteInstance :=
  if l.isEmpty then ([], [])
  else
    let st := SpriteBatch.buildLoop l 0 ⟨[], [], none, 0⟩
    match st.currentTexture with
    | some t =>
      (st.batches ++ [⟨t, st.batchStartIndex, l.length - st.batchStartIndex⟩],
       st.instances)
    | none => (st.batches, st.instances)

/-! ## Theorems -/

open SpriteBatch

/-- **C5.** `Begin` throws exactly when the engine is already in the
`Batching` state, and `Draw` and `End` throw exactly when it is in the
`Idle` state; in the correct state none of the three raises this error.
Each throw in the source occurs before any mutation, so an erroring
call leaves the engine's per-frame state unchanged (in this embedding
an `.error` result produces no successor state at all: the caller keeps
the unmodified pre-state). -/
theorem spec_C5_state_machine_guards (sb : SpriteBatch) (camera : Nat)
    (r : DrawReq) (cosf sinf : ℚ → ℚ) :
    exOk (sb.Begin camera) = !sb.isBatching ∧
    exOk (sb.Draw r) = sb.isBatching ∧
    exOk (SpriteBatch.End cosf sinf sb) = sb.isBatching := by
  refine ⟨?_, ?_, ?_⟩ <;> cases h : sb.isBatching
  · simp [SpriteBatch.Begin, exOk, h]
  · simp [SpriteBatch.Begin, exOk, h]
  · simp [SpriteBatch.Draw, exOk, h]
  · simp only [SpriteBatch.Draw, h, Bool.not_true, Bool.false_eq_true, if_false]
    split <;> rfl
  · simp [SpriteBatch.End, exOk, h]
  · simp only [SpriteBatch.End, h, Bool.not_true, Bool.false_eq_true, if_false]
    rfl

/-- **C6.** A `Draw` call with a null texture argument behaves exactly
like the same call with the engine's persistent 1×1 white texture
passed explicitly: the two calls produce identical engine states, so
the recorded request carries the white texture as its sort key and all
downstream sorting, grouping and batching is identical. -/
theorem spec_C6_null_texture_substitution (sb : SpriteBatch) (r : DrawReq) :
    sb.Draw { r with texture := none } =
      sb.Draw { r with texture := some sb.whiteTexture } ∧
    (substTexture sb.whiteTexture { r with texture := none }).texture =
      sb.whiteTexture := by
  constructor
  · simp [SpriteBatch.Draw, mkSpriteData]
  · rfl

/-- **C8.** `Camera2D::SetZoom` stores the requested zoom clamped to
the floor `0.1`: a value below `0.1` is raised to exactly `0.1`, a
value at or above `0.1` is stored unchanged; the relative `Zoom` does
the same with `zoom + delta`.  Both mark the view matrix dirty, so the
clamped value is already in place before any matrix that uses the zoom
is (lazily) recomputed. -/
theorem spec_C8_zoom_clamp (c : Camera2D) (z d : ℚ) :
    (c.SetZoom z).zoom = (if z < 1/10 then 1/10 else z) ∧
    (1/10 : ℚ) ≤ (c.SetZoom z).zoom ∧
    (c.SetZoom z).viewDirty = true ∧
    (c.ZoomBy d).zoom = (if c.zoom + d < 1/10 then 1/10 else c.zoom + d) ∧
    (1/10 : ℚ) ≤ (c.ZoomBy d).zoom ∧
    (c.ZoomBy d).viewDirty = true := by
  refine ⟨rfl, ?_, rfl, rfl, ?_, rfl⟩ <;>
    · simp only [Camera2D.SetZoom, Camera2D.ZoomBy]
      split <;> [exact le_refl _; linarith [not_lt.mp (by assumption)]]

/-! ### Infrastructure lemmas about the pipeline -/

/-- An accepted `Draw` appends exactly the substituted sprite record. -/
theorem Draw_accept (sb : SpriteBatch) (r : DrawReq)
    (h : sb.isBatching = true) (hc : sb.spriteDataList.length < sb.maxSprites) :
    sb.Draw r = .ok { sb with
      spriteDataList := sb.spriteDataList ++ [substTexture sb.whiteTexture r] } := by
  simp only [SpriteBatch.Draw, h, Bool.not_true, Bool.false_eq_true, if_false,
    if_neg (Nat.not_le.mpr hc)]
  rfl

/-- A `Draw` at capacity is silently dropped: no error and no state
change at all. -/
theorem Draw_drop (sb : SpriteBatch) (r : DrawReq)
    (h : sb.isBatching = true) (hc : sb.maxSprites ≤ sb.spriteDataList.length) :
    sb.Draw r = .ok sb := by
  simp only [SpriteBatch.Draw, h, Bool.not_true, Bool.false_eq_true, if_false, if_pos hc]

/-- Submitting a request list records exactly the first
`maxSprites − (already recorded)` requests, substituted, in order. -/
theorem drawAll_eq (reqs : List DrawReq) :
    ∀ (sb : SpriteBatch), sb.isBatching = true →
    drawAll sb reqs = .ok { sb with
      spriteDataList := sb.spriteDataList ++
        (reqs.take (sb.maxSprites - sb.spriteDataList.length)).map
          (substTexture sb.whiteTexture) } := by
  induction reqs with
  | nil => intro sb h; simp [drawAll]
  | cons r rest ih =>
    intro sb h
    by_cases hc : sb.maxSprites ≤ sb.spriteDataList.length
    · simp only [drawAll, Draw_drop sb r h hc]
      have hz : sb.maxSprites - sb.spriteDataList.length = 0 :=
        Nat.sub_eq_zero_of_le hc
      rw [ih sb h, hz]
      simp [hz]
    · have hlt := Nat.lt_of_not_le hc
      simp only [drawAll, Draw_accept sb r h hlt]
      rw [ih { sb with
        spriteDataList := sb.spriteDataList ++ [substTexture sb.whiteTexture r] } h]
      obtain ⟨k, hk⟩ : ∃ k, sb.maxSprites - sb.spriteDataList.length = k + 1 :=
        ⟨sb.maxSprites - sb.spriteDataList.length - 1,
          (Nat.succ_pred_eq_of_pos (Nat.sub_pos_of_lt hlt)).symm⟩
      have hk2 : sb.maxSprites - (sb.spriteDataList.length + 1) = k := by omega
      simp only [List.length_append, List.length_cons, List.length_nil,
        Nat.zero_add, hk, hk2, List.take_succ_cons, List.map_cons]
      simp

/-- A batch chain tiling `[n, m)` forces `n ≤ m`. -/
theorem coversFromB_le : ∀ (bs : List BatchInfo) (n m : Nat),
    coversFromB n bs m = true → n ≤ m := by
  intro bs
  induction bs with
  | nil => intro n m h; simp [coversFromB] at h; omega
  | cons b rest ih =>
    intro n m h
    simp only [coversFromB, Bool.and_eq_true, beq_iff_eq, decide_eq_true_eq] at h
    have := ih (n + b.instanceCount) m h.2
    omega

/-- Tilings compose by concatenation. -/
theorem coversFromB_append : ∀ (bs1 : List BatchInfo) (bs2 : List BatchInfo)
    (n k m : Nat), coversFromB n bs1 k = true → coversFromB k bs2 m = true →
    coversFromB n (bs1 ++ bs2) m = true := by
  intro bs1
  induction bs1 with
  | nil =>
    intro bs2 n k m h1 h2
    simp only [coversFromB, beq_iff_eq] at h1
    simpa [h1] using h2
  | cons b rest ih =>
    intro bs2 n k m h1 h2
    simp only [coversFromB, Bool.and_eq_true, beq_iff_eq, decide_eq_true_eq] at h1 ⊢
    exact ⟨⟨h1.1.1, h1.1.2⟩, ih bs2 _ k m h1.2 h2⟩

/-- A single batch `⟨t, k, m − k⟩` tiles `[k, m)` when `k < m`. -/
theorem coversFromB_single (t : TexturePtr) (k m : Nat) (h : k < m) :
    coversFromB k [⟨t, k, m - k⟩] m = true := by
  simp only [coversFromB, Bool.and_eq_true, beq_iff_eq, decide_eq_true_eq]
  exact ⟨⟨trivial, by omega⟩, by omega⟩

/-- A repeated head value does not open a new run. -/
theorem countRuns_cons_cons_eq (a : TexturePtr) (l : List TexturePtr) :
    countRuns (a :: a :: l) = countRuns (a :: l) := by
  simp [countRuns]

/-- A changed head value opens a new run. -/
theorem countRuns_cons_cons_ne (a b : TexturePtr) (h : a ≠ b)
    (l : List TexturePtr) : countRuns (a :: b :: l) = 1 + countRuns (b :: l) := by
  simp [countRuns, h]

/-- Master invariant of the `BuildBatches` scan: starting with an open
batch `[batchStartIndex, i)` for texture `t` and already-closed batches
tiling `[0, batchStartIndex)`, the loop keeps an open batch, keeps the
closed batches a tiling, pushes every instance in order, and closes one
batch per maximal texture run. -/
theorem buildLoop_spec :
    ∀ (rest : List SpriteData) (i : Nat) (t : TexturePtr) (st : BuildState),
      st.currentTexture = some t →
      st.batchStartIndex < i →
      coversFromB 0 st.batches st.batchStartIndex = true →
      ∃ t2 : TexturePtr,
        (buildLoop rest i st).currentTexture = some t2 ∧
        (buildLoop rest i st).batchStartIndex < i + rest.length ∧
        coversFromB 0 (buildLoop rest i st).batches
          (buildLoop rest i st).batchStartIndex = true ∧
        (buildLoop rest i st).instances = st.instances ++ rest.map (·.inst) ∧
        (buildLoop rest i st).batches.length + 1 =
          st.batches.length + countRuns (t :: rest.map (·.texture)) := by
  intro rest
  induction rest with
  | nil =>
    intro i t st hcur hlt hcov
    refine ⟨t, hcur, by simpa using hlt, hcov, by simp [buildLoop], ?_⟩
    simp [buildLoop, countRuns]
  | cons sd rest2 ih =>
    intro i t st hcur hlt hcov
    obtain ⟨bs, insts, cur, start⟩ := st
    simp only at hcur hlt hcov
    subst hcur
    by_cases he : sd.texture = t
    · subst he
      have hcond : ¬ (some sd.texture ≠ some sd.texture) := by simp
      simp only [buildLoop, if_neg hcond]
      obtain ⟨t2, h1, h2, h3, h4, h5⟩ :=
        ih (i + 1) sd.texture ⟨bs, insts ++ [sd.inst], some sd.texture, start⟩
          rfl (Nat.lt_succ_of_lt hlt) hcov
      simp only at h1 h2 h3 h4 h5
      refine ⟨t2, h1, by simp only [List.length_cons]; omega, h3, ?_, ?_⟩
      · rw [h4]; simp
      · rw [h5, List.map_cons, countRuns_cons_cons_eq]
    · have hcond : some sd.texture ≠ some t := by
        simp only [ne_eq, Option.some.injEq]
        exact he
      simp only [buildLoop, if_pos hcond, if_pos hlt]
      obtain ⟨t2, h1, h2, h3, h4, h5⟩ :=
        ih (i + 1) sd.texture
          ⟨bs ++ [⟨t, start, i - start⟩], insts ++ [sd.inst], some sd.texture, i⟩
          rfl (Nat.lt_succ_self i)
          (coversFromB_append _ _ 0 start i hcov
            (coversFromB_single t start i hlt))
      simp only at h1 h2 h3 h4 h5
      refine ⟨t2, h1, by simp only [List.length_cons]; omega, h3, ?_, ?_⟩
      · rw [h4]; simp
      · rw [h5, List.map_cons, countRuns_cons_cons_ne t sd.texture (Ne.symm he)]
        simp only [List.length_append, List.length_cons, List.length_nil]
        omega

/-- `SortBatches` only replaces the sprite list, by `sortedListOf`. -/
theorem SortBatches_eq (sb : SpriteBatch) :
    SortBatches sb = { sb with spriteDataList := sortedListOf sb } := by
  unfold SortBatches sortedListOf
  split
  · rfl
  · rfl

/-- On a frame whose batch and instance vectors start empty,
`BuildBatches` installs exactly `buildResult` of the sprite list. -/
theorem BuildBatches_eq (sb : SpriteBatch)
    (hb : sb.batches = []) (hi : sb.instances = []) :
    BuildBatches sb = { sb with
      batches := (buildResult sb.spriteDataList).1
      instances := (buildResult sb.spriteDataList).2 } := by
  unfold BuildBatches buildResult
  rw [hb, hi]
  split
  · rw [← hb, ← hi]
  · cases hcur : (buildLoop sb.spriteDataList 0 ⟨[], [], none, 0⟩).currentTexture <;>
      simp [hcur]

/-- `buildResult` partitions `[0, length)`, emits the instances in list
order, and produces one batch per maximal texture run. -/
theorem buildResult_spec (l : List SpriteData) :
    coversFromB 0 (buildResult l).1 l.length = true ∧
    (buildResult l).2 = l.map (·.inst) ∧
    (buildResult l).1.length = countRuns (l.map (·.texture)) := by
  cases l with
  | nil => simp [buildResult, coversFromB, countRuns]
  | cons a tail =>
    have hstep : buildLoop (a :: tail) 0 ⟨[], [], none, 0⟩ =
        buildLoop tail 1 ⟨[], [a.inst], some a.texture, 0⟩ := by
      simp [buildLoop]
    obtain ⟨t2, h1, h2, h3, h4, h5⟩ :=
      buildLoop_spec tail 1 a.texture ⟨[], [a.inst], some a.texture, 0⟩
        rfl Nat.zero_lt_one (by simp [coversFromB])
    simp only [List.length_nil, Nat.zero_add] at h1 h2 h3 h4 h5
    unfold buildResult
    simp only [List.isEmpty_cons, Bool.false_eq_true, if_false, hstep, h1]
    set st := buildLoop tail 1 ⟨[], [a.inst], some a.texture, 0⟩ with hst
    refine ⟨?_, ?_, ?_⟩
    · exact coversFromB_append _ _ 0 st.batchStartIndex (a :: tail).length h3
        (coversFromB_single t2 st.batchStartIndex (a :: tail).length
          (by simp only [List.length_cons]; omega))
    · simpa using h4
    · simp only [List.length_append, List.length_cons, List.length_nil, List.map_cons]
      omega

/-- `UploadInstanceData` touches only the staging slots. -/
theorem Upload_fields (sb : SpriteBatch) :
    (UploadInstanceData sb).spriteDataList = sb.spriteDataList ∧
    (UploadInstanceData sb).instances = sb.instances ∧
    (UploadInstanceData sb).batches = sb.batches ∧
    (UploadInstanceData sb).vertices = sb.vertices ∧
    (UploadInstanceData sb).indices = sb.indices ∧
    (UploadInstanceData sb).isBatching = sb.isBatching ∧
    (UploadInstanceData sb).currentFrameIndex = sb.currentFrameIndex := by
  unfold UploadInstanceData
  refine ⟨?_, ?_, ?_, ?_, ?_, ?_, ?_⟩ <;> (repeat' split) <;> rfl

/-- What `End` computes on a frame whose per-frame vectors start empty
(as `Begin` leaves them): the sorted list, its batch partition, its
instance records, the legacy vertex/index arrays and the statistics. -/
theorem End_ok (cosf sinf : ℚ → ℚ) (sb : SpriteBatch) (h : sb.isBatching = true)
    (hb : sb.batches = []) (hi : sb.instances = []) (hv : sb.vertices = [])
    (hx : sb.indices = []) :
    ∃ sb2, SpriteBatch.End cosf sinf sb = .ok sb2 ∧
      sb2.spriteDataList = sortedListOf sb ∧
      sb2.instances = (sortedListOf sb).map (·.inst) ∧
      coversFromB 0 sb2.batches (sortedListOf sb).length = true ∧
      sb2.batches.length = countRuns ((sortedListOf sb).map (·.texture)) ∧
      sb2.statistics.spriteCount = (sortedListOf sb).length ∧
      sb2.statistics.drawCallCount = sb2.batches.length ∧
      sb2.statistics.textureBindCount = sb2.batches.length ∧
      sb2.vertices = (legacyEmit cosf sinf (sortedListOf sb) ([], [])).1 ∧
      sb2.indices = (legacyEmit cosf sinf (sortedListOf sb) ([], [])).2 ∧
      sb2.isBatching = false := by
  obtain ⟨hc1, hc2, hc3⟩ := buildResult_spec (sortedListOf sb)
  simp only [SpriteBatch.End, h, Bool.not_true, Bool.false_eq_true, if_false]
  rw [SortBatches_eq sb]
  rw [BuildBatches_eq { sb with spriteDataList := sortedListOf sb } hb hi]
  obtain ⟨u1, u2, u3, u4, u5, u6, u7⟩ := Upload_fields
    { sb with
      spriteDataList := sortedListOf sb
      batches := (buildResult (sortedListOf sb)).1
      instances := (buildResult (sortedListOf sb)).2 }
  refine ⟨_, rfl, ?_, ?_, ?_, ?_, ?_, ?_, ?_, ?_, ?_, rfl⟩ <;>
    simp only [u1, u2, u3, u4, u5] <;>
    simp [hv, hx, hc1, hc2, hc3]

/-- A `Begin` from the `Idle` state succeeds and clears the frame. -/
theorem Begin_ok (sb : SpriteBatch) (camera : Nat) (h0 : sb.isBatching = false) :
    sb.Begin camera = .ok (beginState sb camera) := by
  simp [SpriteBatch.Begin, h0, beginState]

/-- Full-frame characterization: a frame started from the `Idle`
state runs to completion and produces the sorted accepted list, its
partition into batches, its instance records, the legacy vertex/index
arrays and the statistics. -/
theorem runFrame_spec (cosf sinf : ℚ → ℚ) (sb : SpriteBatch) (camera : Nat)
    (reqs : List DrawReq) (h0 : sb.isBatching = false) :
    ∃ sb2, runFrame cosf sinf sb camera reqs = .ok sb2 ∧
      sb2.spriteDataList = sortedData sb reqs ∧
      sb2.instances = (sortedData sb reqs).map (·.inst) ∧
      coversFromB 0 sb2.batches (sortedData sb reqs).length = true ∧
      sb2.batches.length = countRuns ((sortedData sb reqs).map (·.texture)) ∧
      sb2.statistics.spriteCount = (sortedData sb reqs).length ∧
      sb2.statistics.drawCallCount = sb2.batches.length ∧
      sb2.statistics.textureBindCount = sb2.batches.length ∧
      sb2.vertices = (legacyEmit cosf sinf (sortedData sb reqs) ([], [])).1 ∧
      sb2.indices = (legacyEmit cosf sinf (sortedData sb reqs) ([], [])).2 ∧
      sb2.isBatching = false := by
  have hdrawn : drawAll (beginState sb camera) reqs = .ok (drawnState sb camera reqs) := by
    rw [drawAll_eq reqs (beginState sb camera) rfl]
    simp [beginState, drawnState, acceptedData]
  have hs : sortedListOf (drawnState sb camera reqs) = sortedData sb reqs := rfl
  obtain ⟨sb2, he, e1, e2, e3, e4, e5, e6, e7, e8, e9, e10⟩ :=
    End_ok cosf sinf (drawnState sb camera reqs) rfl rfl rfl rfl rfl
  rw [hs] at e1 e2 e3 e4 e5 e8 e9
  refine ⟨sb2, ?_, e1, e2, e3, e4, e5, e6, e7, e8, e9, e10⟩
  simp only [runFrame, Begin_ok sb camera h0, hdrawn, he]

/-- The sort does not change the number of recorded sprites. -/
theorem sortedData_length (sb : SpriteBatch) (reqs : List DrawReq) :
    (sortedData sb reqs).length = (acceptedData sb reqs).length := by
  unfold sortedData
  simp only []
  split
  · rfl
  · exact List.length_mergeSort (acceptedData sb reqs)

/-- When every request fits in the capacity, all of them are accepted. -/
theorem acceptedData_all (sb : SpriteBatch) (reqs : List DrawReq)
    (h1 : reqs.length ≤ sb.maxSprites) :
    acceptedData sb reqs = reqs.map (substTexture sb.whiteTexture) := by
  unfold acceptedData
  rw [List.take_of_length_le h1]

/-- At overcapacity, exactly the first `maxSprites` requests are kept. -/
theorem acceptedData_length_clamped (sb : SpriteBatch) (reqs : List DrawReq)
    (h1 : sb.maxSprites ≤ reqs.length) :
    (acceptedData sb reqs).length = sb.maxSprites := by
  unfold acceptedData
  rw [List.length_map, List.length_take]
  omega

/-- **C1.** For a frame of `N` draw requests all within capacity,
the batches produced by `BuildBatches` partition the instance list
exactly: `coversFromB 0 batches N` states that the
`(startInstance, instanceCount)` ranges are contiguous, pairwise
disjoint, all non-empty, and cover exactly `[0, N)`; the instance list
has exactly `N` records. -/
theorem spec_C1_batch_partition (cosf sinf : ℚ → ℚ) (sb : SpriteBatch)
    (camera : Nat) (reqs : List DrawReq)
    (h0 : sb.isBatching = false) (h1 : reqs.length ≤ sb.maxSprites) :
    ∃ sb2, runFrame cosf sinf sb camera reqs = .ok sb2 ∧
      sb2.instances.length = reqs.length ∧
      coversFromB 0 sb2.batches reqs.length = true := by
  obtain ⟨sb2, he, e1, e2, e3, e4, e5, e6, e7, e8, e9, e10⟩ :=
    runFrame_spec cosf sinf sb camera reqs h0
  have hlen : (sortedData sb reqs).length = reqs.length := by
    rw [sortedData_length, acceptedData_all sb reqs h1, List.length_map]
  refine ⟨sb2, he, ?_, ?_⟩
  · rw [e2, List.length_map, hlen]
  · rw [← hlen]
    exact e3

/-- Witness for C1 at a concrete input. -/
theorem spec_C1_batch_partition_witness :
    ∃ sb2, runFrame (fun _ => 1) (fun _ => 0) (mkSpriteBatch 8 7) 1
        [sampleReq (some 5), sampleReq (some 3), sampleReq (some 5)] = .ok sb2 ∧
      sb2.instances.length =
        [sampleReq (some 5), sampleReq (some 3), sampleReq (some 5)].length ∧
      coversFromB 0 sb2.batches
        [sampleReq (some 5), sampleReq (some 3), sampleReq (some 5)].length = true :=
  spec_C1_batch_partition (fun _ => 1) (fun _ => 0) (mkSpriteBatch 8 7) 1
    [sampleReq (some 5), sampleReq (some 3), sampleReq (some 5)] rfl (by decide)

/-- **C2.** Submitting `capacity + K` requests (`K > 0`) records exactly
`capacity` sprites: a `Draw` at capacity returns normally and leaves the
whole engine state unchanged (silent drop, no error), and after `End`
the sprite list, the instance list and the statistics sprite count all
equal `capacity`, not `capacity + K`. -/
theorem spec_C2_capacity_clamp (cosf sinf : ℚ → ℚ) (sb : SpriteBatch)
    (camera : Nat) (reqs : List DrawReq) (K : Nat)
    (h0 : sb.isBatching = false) (hK : 0 < K)
    (hlen : reqs.length = sb.maxSprites + K) :
    (∀ (sbF : SpriteBatch) (r : DrawReq), sbF.isBatching = true →
        sbF.maxSprites ≤ sbF.spriteDataList.length → sbF.Draw r = .ok sbF) ∧
    ∃ sb2, runFrame cosf sinf sb camera reqs = .ok sb2 ∧
      sb2.spriteDataList.length = sb.maxSprites ∧
      sb2.instances.length = sb.maxSprites ∧
      sb2.statistics.spriteCount = sb.maxSprites := by
  refine ⟨fun sbF r hF hcF => Draw_drop sbF r hF hcF, ?_⟩
  obtain ⟨sb2, he, e1, e2, e3, e4, e5, e6, e7, e8, e9, e10⟩ :=
    runFrame_spec cosf sinf sb camera reqs h0
  have hlen2 : (sortedData sb reqs).length = sb.maxSprites := by
    rw [sortedData_length, acceptedData_length_clamped sb reqs (by omega)]
  refine ⟨sb2, he, ?_, ?_, ?_⟩
  · rw [e1, hlen2]
  · rw [e2, List.length_map, hlen2]
  · rw [e5, hlen2]

/-- Witness for C2 at a concrete input (capacity 2, three requests). -/
theorem spec_C2_capacity_clamp_witness :
    (∀ (sbF : SpriteBatch) (r : DrawReq), sbF.isBatching = true →
        sbF.maxSprites ≤ sbF.spriteDataList.length → sbF.Draw r = .ok sbF) ∧
    ∃ sb2, runFrame (fun _ => 1) (fun _ => 0) (mkSpriteBatch 2 9) 1
        [sampleReq (some 5), sampleReq (some 3), sampleReq (some 5)] = .ok sb2 ∧
      sb2.spriteDataList.length = (mkSpriteBatch 2 9).maxSprites ∧
      sb2.instances.length = (mkSpriteBatch 2 9).maxSprites ∧
      sb2.statistics.spriteCount = (mkSpriteBatch 2 9).maxSprites :=
  spec_C2_capacity_clamp (fun _ => 1) (fun _ => 0) (mkSpriteBatch 2 9) 1
    [sampleReq (some 5), sampleReq (some 3), sampleReq (some 5)] 1 rfl
    (by decide) (by decide)

/-- One step of the legacy emission: four vertices and the six quad
indices based at the current vertex count. -/
theorem legacyEmit_cons (cosf sinf : ℚ → ℚ) (sd : SpriteData)
    (rest : List SpriteData) (vs : List Vertex2D) (ixs : List Nat) :
    ∃ v0 v1 v2 v3 : Vertex2D,
      legacyEmit cosf sinf (sd :: rest) (vs, ixs) =
        legacyEmit cosf sinf rest
          (vs ++ [v0, v1, v2, v3],
           ixs ++ [vs.length, vs.length + 1, vs.length + 2,
                   vs.length + 2, vs.length + 3, vs.length]) :=
  ⟨_, _, _, _, rfl⟩

/-- The legacy emission produces `4` vertices and `6` indices per
request, and every emitted index addresses an emitted vertex. -/
theorem legacyEmit_spec (cosf sinf : ℚ → ℚ) :
    ∀ (l : List SpriteData) (vs : List Vertex2D) (ixs : List Nat),
      (∀ ix ∈ ixs, ix < vs.length) →
      (legacyEmit cosf sinf l (vs, ixs)).1.length = vs.length + 4 * l.length ∧
      (legacyEmit cosf sinf l (vs, ixs)).2.length = ixs.length + 6 * l.length ∧
      ∀ ix ∈ (legacyEmit cosf sinf l (vs, ixs)).2,
        ix < (legacyEmit cosf sinf l (vs, ixs)).1.length := by
  intro l
  induction l with
  | nil =>
    intro vs ixs hvix
    exact ⟨by simp [legacyEmit], by simp [legacyEmit], by simpa [legacyEmit] using hvix⟩
  | cons sd rest ih =>
    intro vs ixs hvix
    obtain ⟨v0, v1, v2, v3, hstep⟩ := legacyEmit_cons cosf sinf sd rest vs ixs
    rw [hstep]
    have hnew : ∀ ix ∈ ixs ++ [vs.length, vs.length + 1, vs.length + 2,
        vs.length + 2, vs.length + 3, vs.length],
        ix < (vs ++ [v0, v1, v2, v3]).length := by
      intro ix hix
      rw [List.length_append]
      rcases List.mem_append.mp hix with hold | hnew6
      · have := hvix ix hold
        simp only [List.length_cons, List.length_nil]
        omega
      · simp only [List.length_cons, List.length_nil]
        simp at hnew6
        omega
    obtain ⟨g1, g2, g3⟩ := ih (vs ++ [v0, v1, v2, v3])
      (ixs ++ [vs.length, vs.length + 1, vs.length + 2,
        vs.length + 2, vs.length + 3, vs.length]) hnew
    refine ⟨?_, ?_, g3⟩
    · rw [g1]
      simp only [List.length_append, List.length_cons, List.length_nil]
      omega
    · rw [g2]
      simp only [List.length_append, List.length_cons, List.length_nil]
      omega

/-- The per-batch indexed draws of `Render` consume index ranges lying
inside `[0, 6m)` whenever the batches tile `[s, m)` and the running
offset starts at `6s`. -/
theorem renderLoop_bounds :
    ∀ (bs : List BatchInfo) (s m : Nat) (sb : SpriteBatch),
      coversFromB s bs m = true →
      ∀ cmd ∈ (renderLoop bs (6 * s) sb).1,
        cmd.indexCount % 6 = 0 ∧ cmd.firstIndex + cmd.indexCount ≤ 6 * m := by
  intro bs
  induction bs with
  | nil =>
    intro s m sb h cmd hm
    simp [renderLoop] at hm
  | cons b rest ih =>
    intro s m sb h cmd hm
    simp only [coversFromB, Bool.and_eq_true, beq_iff_eq, decide_eq_true_eq] at h
    obtain ⟨⟨hstart, hpos⟩, hrest⟩ := h
    have hle : s + b.instanceCount ≤ m := coversFromB_le rest _ _ hrest
    simp only [renderLoop, List.mem_cons] at hm
    rcases hm with rfl | hm
    · constructor
      · show b.instanceCount * 6 % 6 = 0
        simp
      · show 6 * s + b.instanceCount * 6 ≤ 6 * m
        omega
    · have h6 : 6 * s + b.instanceCount * 6 = 6 * (s + b.instanceCount) := by ring
      rw [h6] at hm
      exact ih (s + b.instanceCount) m _ hrest cmd hm

/-- **C10.** For a completed frame of `N` accepted requests, the legacy
fallback emits exactly `4N` vertices and `6N` indices, every emitted
index is strictly below `4N`, and every per-batch indexed draw issued
by `Render` (`instanceCount * 6` indices starting at the running
offset) stays within the `6N` emitted indices — no draw references a
vertex or index slot that was not written this frame. -/
theorem spec_C10_legacy_buffer_safety (cosf sinf : ℚ → ℚ) (sb : SpriteBatch)
    (camera : Nat) (reqs : List DrawReq)
    (h0 : sb.isBatching = false) (h1 : reqs.length ≤ sb.maxSprites) :
    ∃ sb2, runFrame cosf sinf sb camera reqs = .ok sb2 ∧
      sb2.vertices.length = 4 * reqs.length ∧
      sb2.indices.length = 6 * reqs.length ∧
      (∀ ix ∈ sb2.indices, ix < 4 * reqs.length) ∧
      (∀ cmd ∈ (Render sb2).1,
        cmd.indexCount % 6 = 0 ∧
        cmd.firstIndex + cmd.indexCount ≤ 6 * reqs.length) := by
  obtain ⟨sb2, he, e1, e2, e3, e4, e5, e6, e7, e8, e9, e10⟩ :=
    runFrame_spec cosf sinf sb camera reqs h0
  have hlen : (sortedData sb reqs).length = reqs.length := by
    rw [sortedData_length, acceptedData_all sb reqs h1, List.length_map]
  obtain ⟨g1, g2, g3⟩ :=
    legacyEmit_spec cosf sinf (sortedData sb reqs) [] [] (by simp)
  refine ⟨sb2, he, ?_, ?_, ?_, ?_⟩
  · rw [e8, g1, hlen]
    simp
  · rw [e9, g2, hlen]
    simp
  · intro ix hix
    rw [e9] at hix
    have := g3 ix hix
    rw [g1, hlen] at this
    simpa using this
  · intro cmd hcmd
    unfold Render at hcmd
    split at hcmd
    · simp at hcmd
    · rw [← hlen]
      exact renderLoop_bounds sb2.batches 0 (sortedData sb reqs).length sb2 e3 cmd hcmd

/-- Witness for C10 at a concrete input. -/
theorem spec_C10_legacy_buffer_safety_witness :
    ∃ sb2, runFrame (fun _ => 1) (fun _ => 0) (mkSpriteBatch 8 7) 1
        [sampleReq (some 5), sampleReq (some 3), sampleReq (some 5)] = .ok sb2 ∧
      sb2.vertices.length =
        4 * [sampleReq (some 5), sampleReq (some 3), sampleReq (some 5)].length ∧
      sb2.indices.length =
        6 * [sampleReq (some 5), sampleReq (some 3), sampleReq (some 5)].length ∧
      (∀ ix ∈ sb2.indices,
        ix < 4 * [sampleReq (some 5), sampleReq (some 3), sampleReq (some 5)].length) ∧
      (∀ cmd ∈ (Render sb2).1,
        cmd.indexCount % 6 = 0 ∧
        cmd.firstIndex + cmd.indexCount ≤
          6 * [sampleReq (some 5), sampleReq (some 3), sampleReq (some 5)].length) :=
  spec_C10_legacy_buffer_safety (fun _ => 1) (fun _ => 0) (mkSpriteBatch 8 7) 1
    [sampleReq (some 5), sampleReq (some 3), sampleReq (some 5)] rfl (by decide)

/-- The texture key order is transitive. -/
theorem texLE_trans (a b c : SpriteData) :
    texLE a b = true → texLE b c = true → texLE a c = true := by
  intro h1 h2
  simp only [texLE, decide_eq_true_eq] at h1 h2 ⊢
  exact le_trans h1 h2

/-- The texture key order is total. -/
theorem texLE_total (a b : SpriteData) : (texLE a b || texLE b a) = true := by
  simp only [texLE, Bool.or_eq_true, decide_eq_true_eq]
  exact Nat.le_total a.texture b.texture

/-- Stability of the texture sort, in filter form: the subsequence of
records carrying any one texture is unchanged by the sort. -/
theorem mergeSort_filter_texture (l : List SpriteData) (t : TexturePtr) :
    (l.mergeSort texLE).filter (fun sd => sd.texture == t) =
      l.filter (fun sd => sd.texture == t) := by
  have hpair : (l.filter (fun sd => sd.texture == t)).Pairwise
      (fun a b => texLE a b = true) := by
    apply List.pairwise_of_forall_mem_list
    intro a ha b hb
    have ha2 := List.of_mem_filter ha
    have hb2 := List.of_mem_filter hb
    simp only [beq_iff_eq] at ha2 hb2
    simp only [texLE, decide_eq_true_eq, ha2, hb2]
    exact le_refl t
  have hsub : List.Sublist (l.filter (fun sd => sd.texture == t)) (l.mergeSort texLE) :=
    List.sublist_mergeSort texLE_trans texLE_total hpair (List.filter_sublist l)
  have h1 := hsub.filter (fun sd => sd.texture == t)
  rw [List.filter_filter] at h1
  simp only [Bool.and_self] at h1
  have hperm : List.Perm ((l.mergeSort texLE).filter (fun sd => sd.texture == t))
      (l.filter (fun sd => sd.texture == t)) :=
    (List.mergeSort_perm l texLE).filter (fun sd => sd.texture == t)
  exact (h1.eq_of_length hperm.length_eq.symm).symm

/-- **C3.** For two accepted requests `A` before `B` on the same
texture, `A`'s instance record precedes `B`'s after `End`'s sort:
stated in the strongest form, for every texture `t` the subsequence of
post-sort records with texture `t` equals, in order, the subsequence of
submitted requests with texture `t` (the texture sort is stable), and
the instance list is exactly the post-sort record list's payloads. -/
theorem spec_C3_sort_stability (cosf sinf : ℚ → ℚ) (sb : SpriteBatch)
    (camera : Nat) (reqs : List DrawReq)
    (h0 : sb.isBatching = false) (h1 : reqs.length ≤ sb.maxSprites) :
    ∃ sb2, runFrame cosf sinf sb camera reqs = .ok sb2 ∧
      sb2.instances = sb2.spriteDataList.map (·.inst) ∧
      ∀ t : TexturePtr,
        sb2.spriteDataList.filter (fun sd => sd.texture == t) =
          (reqs.map (substTexture sb.whiteTexture)).filter
            (fun sd => sd.texture == t) := by
  obtain ⟨sb2, he, e1, e2, e3, e4, e5, e6, e7, e8, e9, e10⟩ :=
    runFrame_spec cosf sinf sb camera reqs h0
  have hacc := acceptedData_all sb reqs h1
  refine ⟨sb2, he, by rw [e1, e2], ?_⟩
  intro t
  rw [e1]
  unfold sortedData
  simp only []
  split
  · rw [hacc]
  · rw [hacc]
    exact mergeSort_filter_texture _ t

/-- Witness for C3 at a concrete input. -/
theorem spec_C3_sort_stability_witness :
    ∃ sb2, runFrame (fun _ => 1) (fun _ => 0) (mkSpriteBatch 8 7) 1
        [sampleReq (some 5), sampleReq (some 3), sampleReq (some 5)] = .ok sb2 ∧
      sb2.instances = sb2.spriteDataList.map (·.inst) ∧
      ∀ t : TexturePtr,
        sb2.spriteDataList.filter (fun sd => sd.texture == t) =
          ([sampleReq (some 5), sampleReq (some 3), sampleReq (some 5)].map
            (substTexture (mkSpriteBatch 8 7).whiteTexture)).filter
            (fun sd => sd.texture == t) :=
  spec_C3_sort_stability (fun _ => 1) (fun _ => 0) (mkSpriteBatch 8 7) 1
    [sampleReq (some 5), sampleReq (some 3), sampleReq (some 5)] rfl (by decide)

/-- With texture sorting enabled, the post-`End` list is exactly the
stable merge sort of the accepted list. -/
theorem sortedData_of_enabled (sb : SpriteBatch) (reqs : List DrawReq)
    (h : sb.enableTextureSorting = true) :
    sortedData sb reqs = (acceptedData sb reqs).mergeSort texLE := by
  unfold sortedData
  simp only [h, Bool.not_true, Bool.false_or]
  split
  · rename_i hemp
    rw [List.isEmpty_iff.mp hemp]
    exact List.mergeSort_nil.symm
  · rfl

/-- The sorted texture sequence depends only on the multiset of
records: permuting the submission order leaves it unchanged. -/
theorem mergeSort_map_texture_perm (l1 l2 : List SpriteData)
    (hp : List.Perm l1 l2) :
    (l1.mergeSort texLE).map (·.texture) = (l2.mergeSort texLE).map (·.texture) := by
  have hs1 : ((l1.mergeSort texLE).map (·.texture)).Pairwise (· ≤ ·) :=
    (List.sorted_mergeSort texLE_trans texLE_total l1).map _
      (by intro a b hab; simpa [texLE] using hab)
  have hs2 : ((l2.mergeSort texLE).map (·.texture)).Pairwise (· ≤ ·) :=
    (List.sorted_mergeSort texLE_trans texLE_total l2).map _
      (by intro a b hab; simpa [texLE] using hab)
  have hperm : List.Perm ((l1.mergeSort texLE).map (·.texture))
      ((l2.mergeSort texLE).map (·.texture)) :=
    ((List.mergeSort_perm l1 texLE).map _).trans
      ((hp.map _).trans ((List.mergeSort_perm l2 texLE).map _).symm)
  exact List.eq_of_perm_of_sorted hperm hs1 hs2

/-- On a sorted list, the number of maximal runs is at most the number
of distinct values. -/
theorem countRuns_le_dedup :
    ∀ (l : List TexturePtr), l.Pairwise (· ≤ ·) →
      countRuns l ≤ l.dedup.length := by
  intro l
  induction l using countRuns.induct with
  | case1 => intro h; simp [countRuns]
  | case2 a => intro h; simp [countRuns]
  | case3 a b rest ih =>
    intro h
    have hab : a ≤ b := (List.pairwise_cons.mp h).1 b (by simp)
    have h2 : (b :: rest).Pairwise (· ≤ ·) := (List.pairwise_cons.mp h).2
    by_cases he : a = b
    · subst he
      rw [countRuns_cons_cons_eq, List.dedup_cons_of_mem (List.mem_cons_self a rest)]
      exact ih h2
    · rw [countRuns_cons_cons_ne a b he]
      have hnotmem : a ∉ b :: rest := by
        intro hmem
        rcases List.mem_cons.mp hmem with rfl | hmem2
        · exact he rfl
        · have hba : b ≤ a := (List.pairwise_cons.mp h2).1 a hmem2
          exact he (Nat.le_antisymm hab hba)
      rw [List.dedup_cons_of_not_mem hnotmem]
      simp only [List.length_cons]
      have := ih h2
      omega

/-- **C4.** With texture sorting enabled and all requests accepted, the
draw-call count after `End` equals the number of maximal runs of
equal-texture records in the sorted list, is at most the number of
distinct textures referenced, and is unchanged when the same requests
are submitted in any other order. -/
theorem spec_C4_draw_call_minimality (cosf sinf : ℚ → ℚ) (sb : SpriteBatch)
    (camera : Nat) (reqs reqs2 : List DrawReq)
    (h0 : sb.isBatching = false) (hsort : sb.enableTextureSorting = true)
    (h1 : reqs.length ≤ sb.maxSprites) (hperm : List.Perm reqs2 reqs) :
    ∃ sb2 sb3, runFrame cosf sinf sb camera reqs = .ok sb2 ∧
      runFrame cosf sinf sb camera reqs2 = .ok sb3 ∧
      sb2.spriteDataList = sortedData sb reqs ∧
      sb2.statistics.drawCallCount =
        countRuns ((sortedData sb reqs).map (·.texture)) ∧
      sb2.statistics.drawCallCount ≤
        ((reqs.map (substTexture sb.whiteTexture)).map (·.texture)).dedup.length ∧
      sb3.statistics.drawCallCount = sb2.statistics.drawCallCount := by
  obtain ⟨sb2, he, e1, e2, e3, e4, e5, e6, e7, e8, e9, e10⟩ :=
    runFrame_spec cosf sinf sb camera reqs h0
  obtain ⟨sb3, he3, f1, f2, f3, f4, f5, f6, f7, f8, f9, f10⟩ :=
    runFrame_spec cosf sinf sb camera reqs2 h0
  have hacc := acceptedData_all sb reqs h1
  have hacc2 := acceptedData_all sb reqs2 (hperm.length_eq ▸ h1)
  have haccperm : List.Perm (acceptedData sb reqs2) (acceptedData sb reqs) := by
    rw [hacc, hacc2]
    exact hperm.map (substTexture sb.whiteTexture)
  have hsorted := sortedData_of_enabled sb reqs hsort
  have hsorted2 := sortedData_of_enabled sb reqs2 hsort
  have hcount : sb2.statistics.drawCallCount =
      countRuns ((sortedData sb reqs).map (·.texture)) := by
    rw [e6, e4]
  refine ⟨sb2, sb3, he, he3, e1, hcount, ?_, ?_⟩
  · rw [hcount, hsorted]
    have hpair : (((acceptedData sb reqs).mergeSort texLE).map (·.texture)).Pairwise
        (· ≤ ·) :=
      (List.sorted_mergeSort texLE_trans texLE_total (acceptedData sb reqs)).map _
        (by intro a b hab; simpa [texLE] using hab)
    have hd : List.Perm (((acceptedData sb reqs).mergeSort texLE).map (·.texture))
        ((acceptedData sb reqs).map (·.texture)) :=
      (List.mergeSort_perm (acceptedData sb reqs) texLE).map _
    calc countRuns (((acceptedData sb reqs).mergeSort texLE).map (·.texture)) ≤
        (((acceptedData sb reqs).mergeSort texLE).map (·.texture)).dedup.length :=
          countRuns_le_dedup _ hpair
      _ = ((acceptedData sb reqs).map (·.texture)).dedup.length :=
          hd.dedup.length_eq
      _ = ((reqs.map (substTexture sb.whiteTexture)).map (·.texture)).dedup.length := by
          rw [hacc]
  · rw [hcount, f6, f4, hsorted, hsorted2,
      mergeSort_map_texture_perm (acceptedData sb reqs2) (acceptedData sb reqs) haccperm]

/-- Witness for C4 at a concrete input (a permuted resubmission). -/
theorem spec_C4_draw_call_minimality_witness :
    ∃ sb2 sb3, runFrame (fun _ => 1) (fun _ => 0) (mkSpriteBatch 8 7) 1
        [sampleReq (some 5), sampleReq (some 3), sampleReq (some 5)] = .ok sb2 ∧
      runFrame (fun _ => 1) (fun _ => 0) (mkSpriteBatch 8 7) 1
        [sampleReq (some 3), sampleReq (some 5), sampleReq (some 5)] = .ok sb3 ∧
      sb2.spriteDataList = sortedData (mkSpriteBatch 8 7)
        [sampleReq (some 5), sampleReq (some 3), sampleReq (some 5)] ∧
      sb2.statistics.drawCallCount =
        countRuns ((sortedData (mkSpriteBatch 8 7)
          [sampleReq (some 5), sampleReq (some 3), sampleReq (some 5)]).map
            (·.texture)) ∧
      sb2.statistics.drawCallCount ≤
        (([sampleReq (some 5), sampleReq (some 3), sampleReq (some 5)].map
          (substTexture (mkSpriteBatch 8 7).whiteTexture)).map
            (·.texture)).dedup.length ∧
      sb3.statistics.drawCallCount = sb2.statistics.drawCallCount :=
  spec_C4_draw_call_minimality (fun _ => 1) (fun _ => 0) (mkSpriteBatch 8 7) 1
    [sampleReq (some 5), sampleReq (some 3), sampleReq (some 5)]
    [sampleReq (some 3), sampleReq (some 5), sampleReq (some 5)]
    rfl rfl (by decide) (by decide)

/-- `GetOrCreateDescriptorSet` mutates only the descriptor cache and
the allocator counter. -/
theorem getOrCreate_fields (sb : SpriteBatch) (t : TexturePtr) :
    ∃ dss nid, (GetOrCreateDescriptorSet sb t).2 =
      { sb with descriptorSets := dss, nextDescriptorId := nid } := by
  unfold GetOrCreateDescriptorSet
  cases h : sb.descriptorSets.find? (fun p => p.1 == t) with
  | some p => exact ⟨sb.descriptorSets, sb.nextDescriptorId, rfl⟩
  | none => exact ⟨_, _, rfl⟩

/-- The render loop mutates only the descriptor cache and the
allocator counter. -/
theorem renderLoop_fields :
    ∀ (bs : List BatchInfo) (off : Nat) (sb : SpriteBatch),
      ∃ dss nid, (renderLoop bs off sb).2 =
        { sb with descriptorSets := dss, nextDescriptorId := nid } := by
  intro bs
  induction bs with
  | nil => intro off sb; exact ⟨sb.descriptorSets, sb.nextDescriptorId, rfl⟩
  | cons b rest ih =>
    intro off sb
    simp only [renderLoop]
    obtain ⟨d1, n1, h1⟩ := getOrCreate_fields sb b.texture
    obtain ⟨d2, n2, h2⟩ :=
      ih (off + b.instanceCount * 6) (GetOrCreateDescriptorSet sb b.texture).2
    rw [h2, h1]
    exact ⟨d2, n2, rfl⟩

/-- Existing cache entries survive `GetOrCreateDescriptorSet` (the
cache only grows, and an entry is only inserted when absent). -/
theorem getOrCreate_mono (sb : SpriteBatch) (t t0 : TexturePtr)
    (p : TexturePtr × Nat)
    (h : sb.descriptorSets.find? (fun q => q.1 == t0) = some p) :
    (GetOrCreateDescriptorSet sb t).2.descriptorSets.find?
      (fun q => q.1 == t0) = some p := by
  unfold GetOrCreateDescriptorSet
  cases hf : sb.descriptorSets.find? (fun p => p.1 == t) with
  | some q => simpa using h
  | none =>
    simp only []
    rw [List.find?_append, h]
    rfl

/-- Existing cache entries survive the whole render loop. -/
theorem renderLoop_mono :
    ∀ (bs : List BatchInfo) (off : Nat) (sb : SpriteBatch)
      (t0 : TexturePtr) (p : TexturePtr × Nat),
      sb.descriptorSets.find? (fun q => q.1 == t0) = some p →
      (renderLoop bs off sb).2.descriptorSets.find?
        (fun q => q.1 == t0) = some p := by
  intro bs
  induction bs with
  | nil => intro off sb t0 p h; exact h
  | cons b rest ih =>
    intro off sb t0 p h
    simp only [renderLoop]
    exact ih _ _ t0 p (getOrCreate_mono sb b.texture t0 p h)

/-- After `GetOrCreateDescriptorSet`, the cache maps the texture to
exactly the descriptor that was returned. -/
theorem getOrCreate_post (sb : SpriteBatch) (t : TexturePtr) :
    (GetOrCreateDescriptorSet sb t).2.descriptorSets.find?
      (fun q => q.1 == t) = some (t, (GetOrCreateDescriptorSet sb t).1) := by
  unfold GetOrCreateDescriptorSet
  cases hf : sb.descriptorSets.find? (fun p => p.1 == t) with
  | some q =>
    simp only []
    have hq := List.find?_some hf
    have hq2 : q.1 = t := by simpa using hq
    rw [hf]
    obtain ⟨q1, q2⟩ := q
    simp only at hq2
    rw [hq2]
  | none =>
    simp only []
    rw [List.find?_append, hf]
    simp

/-- A cache hit returns the cached descriptor and leaves the state
untouched. -/
theorem getOrCreate_of_find (sb : SpriteBatch) (t : TexturePtr)
    (p : TexturePtr × Nat)
    (h : sb.descriptorSets.find? (fun q => q.1 == t) = some p) :
    GetOrCreateDescriptorSet sb t = (p.2, sb) := by
  unfold GetOrCreateDescriptorSet
  rw [h]

/-- Rendering the same batches a second time, from the state the first
pass produced, records the identical draw-command sequence. -/
theorem renderLoop_twice :
    ∀ (bs : List BatchInfo) (off : Nat) (sb : SpriteBatch),
      (renderLoop bs off ((renderLoop bs off sb).2)).1 =
        (renderLoop bs off sb).1 := by
  intro bs
  induction bs with
  | nil => intro off sb; rfl
  | cons b rest ih =>
    intro off sb
    have hpost :
        ((renderLoop rest (off + b.instanceCount * 6)
          (GetOrCreateDescriptorSet sb b.texture).2).2).descriptorSets.find?
            (fun q => q.1 == b.texture) =
          some (b.texture, (GetOrCreateDescriptorSet sb b.texture).1) :=
      renderLoop_mono rest _ _ _ _ (getOrCreate_post sb b.texture)
    have hg2 : GetOrCreateDescriptorSet
        ((renderLoop rest (off + b.instanceCount * 6)
          (GetOrCreateDescriptorSet sb b.texture).2).2) b.texture =
        ((GetOrCreateDescriptorSet sb b.texture).1,
         (renderLoop rest (off + b.instanceCount * 6)
           (GetOrCreateDescriptorSet sb b.texture).2).2) :=
      getOrCreate_of_find _ _ _ hpost
    simp only [renderLoop, hg2]
    rw [ih (off + b.instanceCount * 6) (GetOrCreateDescriptorSet sb b.texture).2]

/-- **C7.** `Render` is observationally idempotent: calling it twice
issues the identical sequence of draw calls (same texture, descriptor
set, index count and first index per batch), because `Render` mutates
none of the state that determines the draw sequence — not the batch
list, the instance data, the sprite list, the vertex/index arrays, the
statistics, nor the frame index.  Its only mutation is the lazy
descriptor-set cache, which returns the same cached descriptor on the
second call. -/
theorem spec_C7_render_idempotent (sb : SpriteBatch) :
    (Render (Render sb).2).1 = (Render sb).1 ∧
    (Render sb).2.batches = sb.batches ∧
    (Render sb).2.instances = sb.instances ∧
    (Render sb).2.spriteDataList = sb.spriteDataList ∧
    (Render sb).2.vertices = sb.vertices ∧
    (Render sb).2.indices = sb.indices ∧
    (Render sb).2.statistics = sb.statistics ∧
    (Render sb).2.currentFrameIndex = sb.currentFrameIndex ∧
    (Render sb).2.currentCamera = sb.currentCamera := by
  by_cases hemp : sb.batches.isEmpty
  · have h1 : Render sb = ([], sb) := by
      unfold Render
      rw [if_pos hemp]
    rw [h1]
    exact ⟨congrArg Prod.fst h1, rfl, rfl, rfl, rfl, rfl, rfl, rfl, rfl⟩
  · have h1 : Render sb = renderLoop sb.batches 0 sb := by
      unfold Render
      rw [if_neg hemp]
    obtain ⟨dss, nid, hf⟩ := renderLoop_fields sb.batches 0 sb
    have hbatches : (renderLoop sb.batches 0 sb).2.batches = sb.batches := by
      rw [hf]
    have h2 : Render (Render sb).2 =
        renderLoop sb.batches 0 (renderLoop sb.batches 0 sb).2 := by
      rw [h1]
      unfold Render
      rw [hbatches, if_neg hemp]
    refine ⟨?_, ?_, ?_, ?_, ?_, ?_, ?_, ?_, ?_⟩
    · rw [h2, h1]
      exact renderLoop_twice sb.batches 0 sb
    all_goals rw [h1, hf]

/-- The emission loop of `DrawText` emits exactly one draw request per
code point whose glyph exists and has positive width and height, always
against the font's atlas texture. -/
theorem drawTextLoop_spec (font : Font) (scale : ℚ) (color : ℚ × ℚ × ℚ × ℚ)
    (y : ℚ) :
    ∀ (cps : List Nat) (x : ℚ),
      (drawTextLoop font scale color y cps x).length =
        (cps.filter (glyphVisible font)).length ∧
      ∀ call ∈ drawTextLoop font scale color y cps x,
        call.texture = font.atlasTexture := by
  intro cps
  induction cps with
  | nil => intro x; exact ⟨rfl, by simp [drawTextLoop]⟩
  | cons cp rest ih =>
    intro x
    cases hg : font.glyphs cp with
    | none =>
      obtain ⟨ihl, ihm⟩ := ih (x + (font.fontSize : ℚ) * scale * (1/2))
      have hp : ¬ (glyphVisible font cp = true) := by
        simp [glyphVisible, hg]
      refine ⟨?_, ?_⟩
      · rw [List.filter_cons_of_neg hp]
        simp only [drawTextLoop, hg]
        exact ihl
      · simp only [drawTextLoop, hg]
        exact ihm
    | some glyph =>
      by_cases hsz : 0 < glyph.size.1 ∧ 0 < glyph.size.2
      · have hp : glyphVisible font cp = true := by
          simp [glyphVisible, hg, hsz]
        obtain ⟨ihl, ihm⟩ := ih (x + (glyph.advance : ℚ) * scale)
        refine ⟨?_, ?_⟩
        · rw [List.filter_cons_of_pos hp]
          simp only [drawTextLoop, hg, if_pos hsz, List.singleton_append,
            List.length_cons]
          rw [ihl]
        · simp only [drawTextLoop, hg, if_pos hsz, List.singleton_append]
          intro call hc
          rcases List.mem_cons.mp hc with rfl | hc2
          · rfl
          · exact ihm call hc2
      · have hp : ¬ (glyphVisible font cp = true) := by
          simp [glyphVisible, hg, hsz]
        obtain ⟨ihl, ihm⟩ := ih (x + (glyph.advance : ℚ) * scale)
        refine ⟨?_, ?_⟩
        · rw [List.filter_cons_of_neg hp]
          simp only [drawTextLoop, hg, if_neg hsz, List.nil_append]
          exact ihl
        · simp only [drawTextLoop, hg, if_neg hsz, List.nil_append]
          exact ihm

/-- **C9 (counterexample).** The claim "one draw request per decoded
code point" fails: a one-code-point text whose glyph has zero area
(`blankFont`, code point 32) emits no draw request at all, so the
number of submitted requests (0) differs from the number of decoded
code points (1). -/
theorem spec_C9_counterexample :
    (DrawText blankFont [32] (0, 0) (1, 1, 1, 1) 1 TextAlign.left).length ≠
      [32].length := by decide

/-- **C9 (amended).** `DrawText` emits exactly one draw request per
decoded code point whose glyph is present in the font and has positive
width and height — code points with no glyph, or with a zero-area
glyph (such as a space), advance the pen but emit nothing — and every
emitted request targets the font's atlas texture. -/
theorem spec_C9_glyph_emission (font : Font) (cps : List Nat)
    (pos : ℚ × ℚ) (color : ℚ × ℚ × ℚ × ℚ) (scale : ℚ) (align : TextAlign) :
    (DrawText font cps pos color scale align).length =
      (cps.filter (glyphVisible font)).length ∧
    ∀ call ∈ DrawText font cps pos color scale align,
      call.texture = font.atlasTexture := by
  unfold DrawText
  split
  · rename_i hemp
    rw [List.isEmpty_iff.mp hemp]
    exact ⟨rfl, by simp⟩
  · exact drawTextLoop_spec font scale color (pos.2 + font.ascent * scale) cps _

end V2D
